import Mathlib

/-!
Shallow embedding of the "who-is-my-friend" room server (server.js) and a
verification of the frozen specification claims against it.

The embedding translates the server's data model and event handlers into
executable Lean definitions.  JavaScript `Map`s become insertion-ordered
association lists, nullable fields become `Option`, and the per-event socket
handlers become pure functions from server state (plus the request's
parameters and the freshly generated identifiers) to server state, paired
with the error message emitted to the requesting socket when the handler
rejects the request.
-/

set_option maxHeartbeats 1000000

namespace WhoIsMyFriend

/-- Room lifecycle phase; the server stores the four string literals
`"lobby"`, `"roles"`, `"ready"`, `"reveal"`. -/
inductive Phase where
  | lobby
  | roles
  | ready
  | reveal
deriving DecidableEq, Repr

/-- Rank of a phase in the forward order `lobby → roles → ready → reveal`. -/
def phaseRank : Phase → Nat
  | Phase.lobby => 0
  | Phase.roles => 1
  | Phase.ready => 2
  | Phase.reveal => 3

/-- One entry of a game's `revealRules` array (game JSON).  `scope` is
`none` when the JSON entry carries no scope field (the code reads
`rule.scope ?? null`); a missing `visibleRoleIds`/`visiblePartyIds` is the
empty list (`rule.visibleRoleIds || []`); `includeSelf` is true only for a
literal `true` (`rule.includeSelf === true`). -/
structure RevealRule where
  roleId : String
  scope : Option String
  visibleRoleIds : List String
  visiblePartyIds : List String
  includeSelf : Bool
deriving DecidableEq, Repr

/-- One entry of a game's `roles` array. -/
structure Role where
  id : String
  name : String
  partyId : Option String
deriving DecidableEq, Repr

/-- A game definition loaded from `data/games/*.json`. -/
structure Game where
  id : String
  name : String
  roles : List Role
  revealRules : List RevealRule
deriving DecidableEq, Repr

/-- A room member, as built by `createPlayer` and mutated by the handlers. -/
structure Player where
  id : String
  name : String
  socketId : String
  sessionId : String
  roleId : Option String
  hasSubmittedRole : Bool
  connected : Bool
  disconnectTimer : Bool
deriving DecidableEq, Repr

/-- A room: `players` is the insertion-ordered `Map` of player id to player
(the key of each entry is always the player's own `id` field). -/
structure Room where
  code : String
  ownerId : String
  gameId : Option String
  phase : Phase
  players : List Player
deriving DecidableEq, Repr

/-- Entry of the `socketIndex` map (keyed by socket id). -/
structure SocketEntry where
  code : String
  playerId : String
  sessionId : String
deriving DecidableEq, Repr

/-- Entry of the `sessionIndex` map (keyed by session id). -/
structure SessionEntry where
  code : String
  playerId : String
deriving DecidableEq, Repr

/-- The server's mutable top-level state: the `rooms` map (keyed by room
code, which every stored room also carries in its `code` field), the
`socketIndex` and the `sessionIndex`. -/
structure ServerState where
  rooms : List Room
  socketIndex : List (String × SocketEntry)
  sessionIndex : List (String × SessionEntry)
deriving DecidableEq, Repr

/-- JavaScript `Map.get` on an insertion-ordered association list. -/
def mapGet {α : Type} (m : List (String × α)) (k : String) : Option α :=
  (m.find? (fun e => e.1 == k)).map (fun e => e.2)

/-- JavaScript `Map.set`: replace in place when the key exists, else append. -/
def mapSet {α : Type} (m : List (String × α)) (k : String) (v : α) :
    List (String × α) :=
  if m.any (fun e => e.1 == k) then
    m.map (fun e => if e.1 == k then (k, v) else e)
  else m ++ [(k, v)]

/-- JavaScript `Map.delete`. -/
def mapDelete {α : Type} (m : List (String × α)) (k : String) :
    List (String × α) :=
  m.filter (fun e => !(e.1 == k))

/-- `room.players.get(pid)`. -/
def playersGet (ps : List Player) (pid : String) : Option Player :=
  ps.find? (fun p => p.id == pid)

/-- `room.players.set(p.id, p)`. -/
def playersSet (ps : List Player) (p : Player) : List Player :=
  if ps.any (fun q => q.id == p.id) then
    ps.map (fun q => if q.id == p.id then p else q)
  else ps ++ [p]

/-- `room.players.delete(pid)`. -/
def playersDelete (ps : List Player) (pid : String) : List Player :=
  ps.filter (fun p => !(p.id == pid))

/-- In-place mutation of the player stored under `pid`. -/
def updatePlayer (ps : List Player) (pid : String) (f : Player → Player) :
    List Player :=
  ps.map (fun p => if p.id == pid then f p else p)

/-- Lookup in the rooms list by code. -/
def findRoom (rooms : List Room) (code : String) : Option Room :=
  rooms.find? (fun r => r.code == code)

/-- `rooms.get(code)`. -/
def getRoom (s : ServerState) (code : String) : Option Room :=
  findRoom s.rooms code

/-- In-place mutation of the room stored under `code` (the JS handlers
mutate the fetched room object, which lives inside the `rooms` map). -/
def setRoom (s : ServerState) (code : String) (room : Room) : ServerState :=
  { s with rooms := s.rooms.map (fun r => if r.code == code then room else r) }

/-- `rooms.set(code, room)`. -/
def roomsSet (rooms : List Room) (code : String) (room : Room) : List Room :=
  if rooms.any (fun r => r.code == code) then
    rooms.map (fun r => if r.code == code then room else r)
  else rooms ++ [room]

/-- `rooms.delete(code)`. -/
def deleteRoomByCode (s : ServerState) (code : String) : ServerState :=
  { s with rooms := s.rooms.filter (fun r => !(r.code == code)) }

/-- JavaScript truthiness test for a nullable string (`!x`). -/
def falsy : Option String → Bool
  | none => true
  | some s => s == ""

/-- JavaScript whitespace recognised by `String.prototype.trim`. -/
def isJsSpace (c : Char) : Bool :=
  c == ' ' || c == '\t' || c == '\n' || c == '\r' || c == '\x0b' || c == '\x0c'

/-- ASCII case folding of one character (`toLowerCase`). -/
def toLowerChar (c : Char) : Char :=
  if c.isUpper then Char.ofNat (c.toNat + 32) else c

/-- `s.trim()`, implemented character-wise over the string's data. -/
def trimString (s : String) : String :=
  String.mk (((s.data.dropWhile isJsSpace).reverse.dropWhile isJsSpace).reverse)

/-- `String(name || "").trim().toLowerCase()`, implemented character-wise. -/
def normalizeName (name : String) : String :=
  String.mk ((trimString name).data.map toLowerChar)

/-- `createPlayer(name, socketId, sessionId)`; the freshly drawn
`crypto.randomUUID()` is passed in as `freshId`. -/
def createPlayer (name socketId sessionId freshId : String) : Player :=
  { id := freshId
    name := name
    socketId := socketId
    sessionId := sessionId
    roleId := none
    hasSubmittedRole := false
    connected := true
    disconnectTimer := false }

/-- `resetRoles(room)`: clear every player's role and submission flag. -/
def resetRoles (room : Room) : Room :=
  { room with players := room.players.map (fun p =>
      { p with roleId := none, hasSubmittedRole := false }) }

/-- Public per-player slice of the `room:state` broadcast. -/
structure PlayerPublic where
  id : String
  name : String
  hasSubmittedRole : Bool
deriving DecidableEq, Repr

/-- The `room:state` broadcast payload built by `serializeRoom`. -/
structure RoomStatePayload where
  code : String
  ownerId : String
  gameId : Option String
  phase : Phase
  players : List PlayerPublic
deriving DecidableEq, Repr

/-- `serializeRoom(room)`. -/
def serializeRoom (room : Room) : RoomStatePayload :=
  { code := room.code
    ownerId := room.ownerId
    gameId := room.gameId
    phase := room.phase
    players := room.players.map (fun p =>
      { id := p.id, name := p.name, hasSubmittedRole := p.hasSubmittedRole }) }

/-- One entry of a reveal payload's `visiblePlayers`. -/
structure VisibleEntry where
  playerId : String
  name : String
  roleId : Option String
deriving DecidableEq, Repr

/-- The `room:reveal` payload. -/
structure RevealPayload where
  gameId : Option String
  visiblePlayers : List VisibleEntry
deriving DecidableEq, Repr

/-- `gameMap.get(gid)`: the `Map` built from the games list keeps the last
entry for a duplicated id. -/
def lookupGameId (catalog : List Game) (gid : String) : Option Game :=
  catalog.foldl (fun acc g => if g.id == gid then some g else acc) none

/-- `gameMap.get(room.gameId)` for a nullable game id. -/
def lookupGame (catalog : List Game) : Option String → Option Game
  | none => none
  | some gid => lookupGameId catalog gid

/-- `game.revealRules.find((entry) => entry.roleId === player.roleId) ||
{scope: "self"}`. -/
def findRule (game : Game) (playerRoleId : Option String) : RevealRule :=
  (game.revealRules.find? (fun entry => some entry.roleId == playerRoleId)).getD
    { roleId := ""
      scope := some "self"
      visibleRoleIds := []
      visiblePartyIds := []
      includeSelf := false }

/-- `roleById.get(rid)` where `roleById = new Map(game.roles.map(...))`
(last entry wins on a duplicated role id). -/
def roleById (game : Game) (rid : String) : Option Role :=
  game.roles.foldl (fun acc role => if role.id == rid then some role else acc) none

/-- `roleById.get(item.roleId)` for a nullable role id. -/
def lookupRoleOf (game : Game) : Option String → Option Role
  | none => none
  | some rid => roleById game rid

/-- Projection of a player into a reveal-payload entry. -/
def toVisibleEntry (p : Player) : VisibleEntry :=
  { playerId := p.id, name := p.name, roleId := p.roleId }

/-- The predicate of the custom-scope `players.filter(...)` inside
`getRevealForPlayer`: include-self clause, then `visibleRoleIds.has`, then
the party clause guarded by the truthiness of `role.partyId`. -/
def customVisibleFilter (game : Game) (rule : RevealRule) (actingId : String)
    (item : Player) : Bool :=
  if rule.includeSelf && item.id == actingId then true
  else if (match item.roleId with
           | some rid => rule.visibleRoleIds.contains rid
           | none => false) then true
  else
    match lookupRoleOf game item.roleId with
    | some role =>
        match role.partyId with
        | some pid => !(pid == "") && rule.visiblePartyIds.contains pid
        | none => false
    | none => false

/-- `getRevealForPlayer(room, player)` (the global `gameMap` is passed in
as `catalog`). -/
def getRevealForPlayer (catalog : List Game) (room : Room) (player : Player) :
    RevealPayload :=
  match lookupGame catalog room.gameId with
  | none => { gameId := room.gameId, visiblePlayers := [] }
  | some game =>
      let rule := findRule game player.roleId
      if rule.scope == some "all" then
        { gameId := room.gameId
          visiblePlayers := room.players.map toVisibleEntry }
      else if rule.scope == some "self" then
        { gameId := room.gameId
          visiblePlayers := [toVisibleEntry player] }
      else
        { gameId := room.gameId
          visiblePlayers :=
            (room.players.filter (customVisibleFilter game rule player.id)).map
              toVisibleEntry }

/-- `rooms.has(code)`. -/
def hasRoomCode (rooms : List Room) (code : String) : Bool :=
  rooms.any (fun r => r.code == code)

/-- `generateRoomCode()`: keep drawing 4-digit strings until the drawn code
is not a live room code; `draws` is the sequence of drawn strings and the
do-while loop returns the first fresh draw. -/
def generateRoomCode (rooms : List Room) (draws : Nat → String)
    (h : ∃ n, hasRoomCode rooms (draws n) = false) : String :=
  draws (Nat.find h)

/-- The room-level part shared verbatim by `removePlayerFromRoom` and the
disconnect-grace timer callback: delete the player; report `none` when the
room became empty (the caller then deletes the room); otherwise transfer
ownership to `room.players.values().next().value`, the first remaining
player in insertion order, when the departed player owned the room. -/
def removeFromRoom (room : Room) (playerId : String) : Option Room :=
  match playersDelete room.players playerId with
  | [] => none
  | p :: rest =>
      some { room with
        players := p :: rest
        ownerId := if room.ownerId == playerId then p.id else room.ownerId }

/-- The effect of `bindSession` on one stored room: refresh the bound
player's connection fields when this is the room stored under `code`. -/
def bindUpd (sessionId code playerId socketId : String) (r : Room) : Room :=
  if r.code == code then
    { r with players := updatePlayer r.players playerId (fun p =>
        { p with
          socketId := socketId
          sessionId := sessionId
          connected := true
          disconnectTimer := false }) }
  else r

/-- `bindSession(sessionId, code, player, socket)`: refresh the player's
connection fields, clear a pending grace timer, and upsert both index
entries.  The player object lives inside the room stored under `code`. -/
def bindSession (s : ServerState) (sessionId code playerId socketId : String) :
    ServerState :=
  let s1 : ServerState :=
    { s with rooms := s.rooms.map (bindUpd sessionId code playerId socketId) }
  { s1 with
    socketIndex := mapSet s1.socketIndex socketId
      { code := code, playerId := playerId, sessionId := sessionId }
    sessionIndex := mapSet s1.sessionIndex sessionId
      { code := code, playerId := playerId } }

/-- The `session:restore` handler.  Stale tokens are dropped silently. -/
def sessionRestore (s : ServerState) (socketId : String)
    (sessionId : Option String) : ServerState :=
  if falsy sessionId then s
  else
    let sid := sessionId.getD ""
    match mapGet s.sessionIndex sid with
    | none => s
    | some session =>
        match getRoom s session.code with
        | none => { s with sessionIndex := mapDelete s.sessionIndex sid }
        | some room =>
            match playersGet room.players session.playerId with
            | none => { s with sessionIndex := mapDelete s.sessionIndex sid }
            | some _ => bindSession s sid room.code session.playerId socketId

/-- The `room:create` handler.  `sessionId` is `rawSessionId ||
crypto.randomUUID()`, `freshPlayerId` the player's fresh UUID and `code`
the result of `generateRoomCode()` (so the caller guarantees it is not a
live room code).  Returns the new state and the error message emitted to
the requesting socket, if any. -/
def roomCreate (s : ServerState) (socketId : String) (name : Option String)
    (sessionId freshPlayerId code : String) : ServerState × Option String :=
  if falsy name then (s, some "Name is required")
  else
    let player := createPlayer (name.getD "") socketId sessionId freshPlayerId
    let room : Room :=
      { code := code
        ownerId := player.id
        gameId := none
        phase := Phase.lobby
        players := [player] }
    let s1 : ServerState := { s with rooms := roomsSet s.rooms code room }
    (bindSession s1 sessionId code player.id socketId, none)

/-- The `room:join` handler.  Note the handler's guard order: missing
fields, unknown room, name collision, and only then the phase check. -/
def roomJoin (s : ServerState) (socketId : String) (code name : Option String)
    (sessionId freshPlayerId : String) : ServerState × Option String :=
  if falsy code || falsy name then (s, some "Code and name are required")
  else
    match getRoom s (code.getD "") with
    | none => (s, some "Room not found")
    | some room =>
        let normalizedName := normalizeName (name.getD "")
        if room.players.any (fun p => normalizeName p.name == normalizedName) then
          (s, some "That name is already taken in this room")
        else if !(room.phase == Phase.lobby) then
          (s, some "Game already started")
        else
          let player := createPlayer (name.getD "") socketId sessionId freshPlayerId
          let room1 := { room with players := playersSet room.players player }
          let s1 := setRoom s room.code room1
          (bindSession s1 sessionId room.code player.id socketId, none)

/-- The `room:selectGame` handler: owner-only; requires a catalog game; has
no phase guard and unconditionally sets `room.phase = "lobby"`. -/
def roomSelectGame (catalog : List Game) (s : ServerState)
    (socketId code gameId : String) : ServerState × Option String :=
  match getRoom s code with
  | none => (s, some "Room not found")
  | some room =>
      match mapGet s.socketIndex socketId with
      | none => (s, some "Only the host can select the game")
      | some index =>
          if !(index.playerId == room.ownerId) then
            (s, some "Only the host can select the game")
          else if !(catalog.any (fun g => g.id == gameId)) then
            (s, some "Unknown game")
          else
            let room1 := resetRoles
              { room with gameId := some gameId, phase := Phase.lobby }
            (setRoom s code room1, none)

/-- The `room:start` handler: owner-only; requires a selected game; has no
phase guard and unconditionally sets `room.phase = "roles"`. -/
def roomStart (s : ServerState) (socketId code : String) :
    ServerState × Option String :=
  match getRoom s code with
  | none => (s, some "Room not found")
  | some room =>
      match mapGet s.socketIndex socketId with
      | none => (s, some "Only the host can start the game")
      | some index =>
          if !(index.playerId == room.ownerId) then
            (s, some "Only the host can start the game")
          else if falsy room.gameId then
            (s, some "Select a game first")
          else
            let room1 := resetRoles { room with phase := Phase.roles }
            (setRoom s code room1, none)

/-- The `room:reset` handler: owner-only; clears the game and every role
and returns the room to the lobby phase. -/
def roomReset (s : ServerState) (socketId code : String) :
    ServerState × Option String :=
  match getRoom s code with
  | none => (s, some "Room not found")
  | some room =>
      match mapGet s.socketIndex socketId with
      | none => (s, some "Only the host can reset the game")
      | some index =>
          if !(index.playerId == room.ownerId) then
            (s, some "Only the host can reset the game")
          else
            let room1 := resetRoles
              { room with gameId := none, phase := Phase.lobby }
            (setRoom s code room1, none)

/-- The `role:submit` handler: records the sender's role and submission
flag, then auto-advances the room to `ready` when every player in the room
has now submitted. -/
def roleSubmit (catalog : List Game) (s : ServerState)
    (socketId code roleId : String) : ServerState × Option String :=
  match getRoom s code, mapGet s.socketIndex socketId with
  | some room, some index =>
      if !(room.phase == Phase.roles) then
        (s, some "Roles are not open yet")
      else
        match playersGet room.players index.playerId with
        | none => (s, some "Player not found")
        | some _ =>
            match lookupGame catalog room.gameId with
            | none => (s, some "Unknown role")
            | some game =>
                if !(game.roles.any (fun role => role.id == roleId)) then
                  (s, some "Unknown role")
                else
                  let room1 := { room with
                    players := updatePlayer room.players index.playerId (fun p =>
                      { p with roleId := some roleId, hasSubmittedRole := true }) }
                  let room2 :=
                    if room1.players.all (fun p => p.hasSubmittedRole) then
                      { room1 with phase := Phase.ready }
                    else room1
                  (setRoom s code room2, none)
  | _, _ => (s, some "Room not found")

/-- The `room:revealConfirm` handler: owner-only; requires phase `ready`
and re-checks that every player has submitted, then moves to `reveal` and
delivers each player's reveal payload. -/
def roomRevealConfirm (s : ServerState) (socketId code : String) :
    ServerState × Option String :=
  match getRoom s code with
  | none => (s, some "Room not found")
  | some room =>
      match mapGet s.socketIndex socketId with
      | none => (s, some "Only the host can reveal roles")
      | some index =>
          if !(index.playerId == room.ownerId) then
            (s, some "Only the host can reveal roles")
          else if !(room.phase == Phase.ready) then
            (s, some "Roles are not ready to reveal")
          else if !(room.players.all (fun p => p.hasSubmittedRole)) then
            (s, some "Not everyone has confirmed a role")
          else
            (setRoom s code { room with phase := Phase.reveal }, none)

/-- `removePlayerFromRoom(io, room, playerId, sessionId, socketId)`:
no-op when the player is not in the room; otherwise delete the player,
drop the truthy index entries, and either delete the now-empty room or
reassign ownership via `removeFromRoom`. -/
def removePlayerFromRoom (s : ServerState) (room : Room) (playerId : String)
    (sessionId socketId : Option String) : ServerState :=
  match playersGet room.players playerId with
  | none => s
  | some _ =>
      let s1 : ServerState :=
        { s with sessionIndex :=
            match sessionId with
            | some sid => if sid == "" then s.sessionIndex
                          else mapDelete s.sessionIndex sid
            | none => s.sessionIndex }
      let s2 : ServerState :=
        { s1 with socketIndex :=
            match socketId with
            | some sk => if sk == "" then s1.socketIndex
                         else mapDelete s1.socketIndex sk
            | none => s1.socketIndex }
      match removeFromRoom room playerId with
      | none => deleteRoomByCode s2 room.code
      | some room1 => setRoom s2 room.code room1

/-- The `room:leave` handler. -/
def roomLeave (s : ServerState) (socketId : String) : ServerState :=
  match mapGet s.socketIndex socketId with
  | none => s
  | some index =>
      match getRoom s index.code with
      | none =>
          let s1 : ServerState :=
            { s with socketIndex := mapDelete s.socketIndex socketId }
          if index.sessionId == "" then s1
          else { s1 with sessionIndex := mapDelete s1.sessionIndex index.sessionId }
      | some room =>
          removePlayerFromRoom s room index.playerId
            (some index.sessionId) (some socketId)

/-- The `disconnect` handler: drop the socket-index entry, mark the player
disconnected and (re)arm the disconnect-grace timer. -/
def disconnectSocket (s : ServerState) (socketId : String) : ServerState :=
  match mapGet s.socketIndex socketId with
  | none => s
  | some index =>
      match getRoom s index.code with
      | none => { s with socketIndex := mapDelete s.socketIndex socketId }
      | some room =>
          let s1 : ServerState :=
            { s with socketIndex := mapDelete s.socketIndex socketId }
          match playersGet room.players index.playerId with
          | none => s1
          | some _ =>
              setRoom s1 index.code
                { room with
                  players := updatePlayer room.players index.playerId (fun p =>
                    { p with connected := false, disconnectTimer := true }) }

/-- The disconnect-grace timer callback for the player `playerId` of the
room stored under `code`: a no-op when the player reconnected; otherwise
delete the player and their session entry, then delete the empty room or
reassign ownership, exactly as `removePlayerFromRoom` does. -/
def graceExpire (s : ServerState) (code playerId : String) : ServerState :=
  match getRoom s code with
  | none => s
  | some room =>
      match playersGet room.players playerId with
      | none => s
      | some player =>
          if player.connected then s
          else
            let s1 : ServerState :=
              { s with sessionIndex := mapDelete s.sessionIndex player.sessionId }
            match removeFromRoom room playerId with
            | none => deleteRoomByCode s1 code
            | some room1 => setRoom s1 code room1

/-- The empty server state at process start. -/
def initialState : ServerState :=
  { rooms := [], socketIndex := [], sessionIndex := [] }

/-- Freshness of a drawn `crypto.randomUUID()` player id: no player of any
live room already carries it. -/
def pidFreshB (s : ServerState) (pid : String) : Bool :=
  s.rooms.all (fun r => r.players.all (fun p => !(p.id == pid)))

/-- A disconnect-grace timer is pending for `playerId` in the room stored
under `code` (armed by the disconnect handler and not yet cleared). -/
def timerArmedB (s : ServerState) (code playerId : String) : Bool :=
  match getRoom s code with
  | some room =>
      match playersGet room.players playerId with
      | some p => p.disconnectTimer
      | none => false
  | none => false

/-- One server event applied to the server state.  Randomly generated
identifiers (room code, player UUID, session UUID) enter as parameters:
the room code carries `generateRoomCode`'s freshness postcondition and a
fresh UUID collides with no existing player id.  The grace-expiry step can
fire only while the player's timer is armed. -/
inductive Step (catalog : List Game) : ServerState → ServerState → Prop
  | restore (s : ServerState) (socketId : String) (sessionId : Option String) :
      Step catalog s (sessionRestore s socketId sessionId)
  | create (s : ServerState) (socketId : String) (name : Option String)
      (sessionId pid code : String)
      (hcode : getRoom s code = none) (hpid : pidFreshB s pid = true) :
      Step catalog s (roomCreate s socketId name sessionId pid code).1
  | join (s : ServerState) (socketId : String) (code name : Option String)
      (sessionId pid : String) (hpid : pidFreshB s pid = true) :
      Step catalog s (roomJoin s socketId code name sessionId pid).1
  | selectGame (s : ServerState) (socketId code gameId : String) :
      Step catalog s (roomSelectGame catalog s socketId code gameId).1
  | start (s : ServerState) (socketId code : String) :
      Step catalog s (roomStart s socketId code).1
  | reset (s : ServerState) (socketId code : String) :
      Step catalog s (roomReset s socketId code).1
  | submit (s : ServerState) (socketId code roleId : String) :
      Step catalog s (roleSubmit catalog s socketId code roleId).1
  | confirm (s : ServerState) (socketId code : String) :
      Step catalog s (roomRevealConfirm s socketId code).1
  | leave (s : ServerState) (socketId : String) :
      Step catalog s (roomLeave s socketId)
  | disc (s : ServerState) (socketId : String) :
      Step catalog s (disconnectSocket s socketId)
  | grace (s : ServerState) (code playerId : String)
      (harmed : timerArmedB s code playerId = true) :
      Step catalog s (graceExpire s code playerId)

/-- Server states reachable from process start. -/
inductive Reachable (catalog : List Game) : ServerState → Prop
  | init : Reachable catalog initialState
  | step {s s' : ServerState} :
      Reachable catalog s → Step catalog s s' → Reachable catalog s'

/-! ### Lookup lemmas for the association-list maps -/

theorem find?_filter_of_imp {α : Type} (l : List α) (p q : α → Bool)
    (h : ∀ a, p a = true → q a = true) : (l.filter q).find? p = l.find? p := by
  induction l with
  | nil => rfl
  | cons a l ih =>
      cases hp : p a with
      | true =>
          have hq := h a hp
          simp only [List.filter_cons, hq, if_true]
          rw [List.find?_cons_of_pos _ hp, List.find?_cons_of_pos _ hp]
      | false =>
          cases hq : q a with
          | true => simp [List.filter_cons, hq, List.find?_cons_of_neg, hp, ih]
          | false => simp [List.filter_cons, hq, List.find?_cons_of_neg, hp, ih]

theorem find?_filter_of_excl {α : Type} (l : List α) (p q : α → Bool)
    (h : ∀ a, p a = true → q a = false) : (l.filter q).find? p = none := by
  rw [List.find?_eq_none]
  intro a ha hpa
  have hq : q a = true := (List.mem_filter.mp ha).2
  rw [h a hpa] at hq
  exact Bool.false_ne_true hq

theorem findRoom_map_stable (l : List Room) (f : Room → Room) (c : String)
    (hf : ∀ r, (f r).code = r.code) :
    findRoom (l.map f) c = (findRoom l c).map f := by
  unfold findRoom
  rw [List.find?_map f l]
  have hfun : ((fun r : Room => r.code == c) ∘ f) = (fun r : Room => r.code == c) := by
    funext r
    simp [Function.comp, hf r]
  rw [hfun]

theorem getRoom_code_eq {s : ServerState} {code : String} {room : Room}
    (h : getRoom s code = some room) : room.code = code := by
  have := List.find?_some h
  exact eq_of_beq this

theorem getRoom_mem {s : ServerState} {code : String} {room : Room}
    (h : getRoom s code = some room) : room ∈ s.rooms :=
  List.mem_of_find?_eq_some h

theorem getRoom_setRoom (s : ServerState) (code : String) (room1 : Room) (c : String)
    (h1 : room1.code = code) :
    getRoom (setRoom s code room1) c =
      (getRoom s c).map (fun r => if r.code == code then room1 else r) := by
  unfold getRoom setRoom
  apply findRoom_map_stable
  intro r
  by_cases hr : r.code = code
  · simp [hr, h1]
  · simp [hr]

theorem getRoom_setRoom_self {s : ServerState} {code : String} {room0 room1 : Room}
    (h0 : getRoom s code = some room0) (h1 : room1.code = code) :
    getRoom (setRoom s code room1) code = some room1 := by
  rw [getRoom_setRoom s code room1 code h1, h0]
  have hc : room0.code = code := getRoom_code_eq h0
  simp [hc]

theorem getRoom_setRoom_ne {s : ServerState} {code : String} {room1 : Room} {c : String}
    (h1 : room1.code = code) (hne : ¬ c = code) :
    getRoom (setRoom s code room1) c = getRoom s c := by
  rw [getRoom_setRoom s code room1 c h1]
  cases h : getRoom s c with
  | none => rfl
  | some r =>
      have hc : r.code = c := getRoom_code_eq h
      have : ¬ (r.code == code) = true := by
        simp [hc]
        exact hne
      simp at this
      simp [this]

theorem getRoom_delete (s : ServerState) (code c : String) :
    getRoom (deleteRoomByCode s code) c =
      if c = code then none else getRoom s c := by
  unfold getRoom deleteRoomByCode findRoom
  by_cases hc : c = code
  · subst hc
    simp only [if_pos rfl]
    apply find?_filter_of_excl
    intro a hpa
    have : a.code = c := eq_of_beq hpa
    simp [this]
  · simp only [if_neg hc]
    apply find?_filter_of_imp
    intro a hpa
    have ha : a.code = c := eq_of_beq hpa
    simp [ha, hc]

theorem getRoom_append (s : ServerState) (room : Room) (c : String) :
    getRoom { s with rooms := s.rooms ++ [room] } c =
      (getRoom s c).or (if room.code == c then some room else none) := by
  unfold getRoom findRoom
  rw [List.find?_append]
  cases h : (room.code == c) with
  | true => simp [List.find?, h]
  | false => simp [List.find?, h]

theorem getRoom_setRoom_cases {s : ServerState} {code0 : String} {room0 room1 : Room}
    {c : String} {room room' : Room}
    (h0 : getRoom s code0 = some room0) (h1 : room1.code = code0)
    (h : getRoom s c = some room)
    (h' : getRoom (setRoom s code0 room1) c = some room') :
    (c = code0 ∧ room = room0 ∧ room' = room1) ∨ room' = room := by
  by_cases hc : c = code0
  · subst hc
    rw [h] at h0
    rw [getRoom_setRoom_self h h1] at h'
    exact Or.inl ⟨rfl, (Option.some.injEq _ _ ▸ h0).symm ▸ rfl, (Option.some.inj h').symm⟩
  · rw [getRoom_setRoom_ne h1 hc, h] at h'
    exact Or.inr (Option.some.inj h').symm

theorem getRoom_bindSession (s : ServerState) (sid code pid sock c : String) :
    getRoom (bindSession s sid code pid sock) c =
      (getRoom s c).map (bindUpd sid code pid sock) := by
  unfold bindSession getRoom
  exact findRoom_map_stable s.rooms _ c (fun r => by
    unfold bindUpd
    by_cases hr : r.code = code <;> simp [hr])

theorem bindUpd_code (sid code pid sock : String) (r : Room) :
    (bindUpd sid code pid sock r).code = r.code := by
  unfold bindUpd
  by_cases hr : r.code = code <;> simp [hr]

theorem bindUpd_phase (sid code pid sock : String) (r : Room) :
    (bindUpd sid code pid sock r).phase = r.phase := by
  unfold bindUpd
  by_cases hr : r.code = code <;> simp [hr]

theorem bindUpd_players_ne_nil (sid code pid sock : String) (r : Room)
    (h : r.players ≠ []) : (bindUpd sid code pid sock r).players ≠ [] := by
  unfold bindUpd
  by_cases hr : r.code = code <;> simp [hr, updatePlayer, h]

/-! ### No live room is ever empty -/

/-- Every room stored in the rooms table has at least one player. -/
def RoomsOK (s : ServerState) : Prop :=
  ∀ r ∈ s.rooms, r.players ≠ []

theorem playersSet_ne_nil (ps : List Player) (p : Player) : playersSet ps p ≠ [] := by
  unfold playersSet
  split
  · next h =>
      obtain ⟨q, hq, _⟩ := List.any_eq_true.mp h
      intro hnil
      rw [List.map_eq_nil_iff] at hnil
      rw [hnil] at hq
      cases hq
  · intro hnil
    cases hnil' : ps with
    | nil => rw [hnil'] at hnil; cases hnil
    | cons a l => rw [hnil'] at hnil; cases hnil

theorem updatePlayer_ne_nil (ps : List Player) (pid : String) (f : Player → Player)
    (h : ps ≠ []) : updatePlayer ps pid f ≠ [] := by
  unfold updatePlayer
  simpa [List.map_eq_nil_iff] using h

theorem removeFromRoom_some_ne_nil {room : Room} {pid : String} {room1 : Room}
    (h : removeFromRoom room pid = some room1) : room1.players ≠ [] := by
  unfold removeFromRoom at h
  cases hd : playersDelete room.players pid with
  | nil => rw [hd] at h; cases h
  | cons p rest =>
      rw [hd] at h
      cases h
      simp

theorem roomsOK_of_rooms_eq {s s' : ServerState} (h : s'.rooms = s.rooms)
    (hok : RoomsOK s) : RoomsOK s' := by
  intro r hr
  exact hok r (h ▸ hr)

theorem roomsOK_setRoom {s : ServerState} {code : String} {room1 : Room}
    (hok : RoomsOK s) (h1 : room1.players ≠ []) : RoomsOK (setRoom s code room1) := by
  intro r hr
  unfold setRoom at hr
  simp only [List.mem_map] at hr
  obtain ⟨r0, hr0, hre⟩ := hr
  by_cases hc : r0.code = code
  · rw [← hre]; simp [hc, h1]
  · rw [← hre]; simp [hc]; exact hok r0 hr0

theorem roomsOK_delete {s : ServerState} {code : String}
    (hok : RoomsOK s) : RoomsOK (deleteRoomByCode s code) := by
  intro r hr
  unfold deleteRoomByCode at hr
  simp only [List.mem_filter] at hr
  exact hok r hr.1

theorem roomsOK_roomsSet {s : ServerState} {code : String} {room : Room}
    (hok : RoomsOK s) (h1 : room.players ≠ []) :
    RoomsOK { s with rooms := roomsSet s.rooms code room } := by
  intro r hr
  unfold roomsSet at hr
  simp only at hr
  split at hr
  · simp only [List.mem_map] at hr
    obtain ⟨r0, hr0, hre⟩ := hr
    by_cases hc : r0.code = code
    · rw [← hre]; simp [hc, h1]
    · rw [← hre]; simp [hc]; exact hok r0 hr0
  · rw [List.mem_append] at hr
    cases hr with
    | inl hmem => exact hok r hmem
    | inr hmem => simp at hmem; rw [hmem]; exact h1

theorem roomsOK_bindSession {s : ServerState} (sid code pid sock : String)
    (hok : RoomsOK s) : RoomsOK (bindSession s sid code pid sock) := by
  intro r hr
  unfold bindSession at hr
  simp only [List.mem_map] at hr
  obtain ⟨r0, hr0, hre⟩ := hr
  rw [← hre]
  exact bindUpd_players_ne_nil sid code pid sock r0 (hok r0 hr0)


theorem roomsOK_sessionRestore {s : ServerState} (sock : String) (sid : Option String)
    (hok : RoomsOK s) : RoomsOK (sessionRestore s sock sid) := by
  unfold sessionRestore
  split
  · exact hok
  · dsimp only
    split
    · exact hok
    · split
      · exact roomsOK_of_rooms_eq rfl hok
      · split
        · exact roomsOK_of_rooms_eq rfl hok
        · exact roomsOK_bindSession _ _ _ _ hok

theorem roomsOK_roomCreate {s : ServerState} (sock : String) (name : Option String)
    (sid pid code : String) (hok : RoomsOK s) :
    RoomsOK (roomCreate s sock name sid pid code).1 := by
  unfold roomCreate
  split
  · exact hok
  · exact roomsOK_bindSession _ _ _ _ (roomsOK_roomsSet hok (by simp))



theorem resetRoles_ne_nil {room : Room} (h : room.players ≠ []) :
    (resetRoles room).players ≠ [] := by
  unfold resetRoles
  simpa [List.map_eq_nil_iff] using h

theorem roomsOK_roomJoin {s : ServerState} (sock : String) (code name : Option String)
    (sid pid : String) (hok : RoomsOK s) :
    RoomsOK (roomJoin s sock code name sid pid).1 := by
  unfold roomJoin
  split
  · exact hok
  · split
    · exact hok
    · next room heq =>
        dsimp only
        split
        · exact hok
        · split
          · exact hok
          · exact roomsOK_bindSession _ _ _ _
              (roomsOK_setRoom hok (playersSet_ne_nil _ _))

theorem roomsOK_roomSelectGame (catalog : List Game) {s : ServerState}
    (sock code gameId : String) (hok : RoomsOK s) :
    RoomsOK (roomSelectGame catalog s sock code gameId).1 := by
  unfold roomSelectGame
  split
  · exact hok
  · next room heq =>
      split
      · exact hok
      · split
        · exact hok
        · split
          · exact hok
          · exact roomsOK_setRoom hok
              (resetRoles_ne_nil (hok room (getRoom_mem heq)))

theorem roomsOK_roomStart {s : ServerState} (sock code : String) (hok : RoomsOK s) :
    RoomsOK (roomStart s sock code).1 := by
  unfold roomStart
  split
  · exact hok
  · next room heq =>
      split
      · exact hok
      · split
        · exact hok
        · split
          · exact hok
          · exact roomsOK_setRoom hok
              (resetRoles_ne_nil (hok room (getRoom_mem heq)))

theorem roomsOK_roomReset {s : ServerState} (sock code : String) (hok : RoomsOK s) :
    RoomsOK (roomReset s sock code).1 := by
  unfold roomReset
  split
  · exact hok
  · next room heq =>
      split
      · exact hok
      · split
        · exact hok
        · exact roomsOK_setRoom hok
            (resetRoles_ne_nil (hok room (getRoom_mem heq)))

theorem roomsOK_roleSubmit (catalog : List Game) {s : ServerState}
    (sock code roleId : String) (hok : RoomsOK s) :
    RoomsOK (roleSubmit catalog s sock code roleId).1 := by
  unfold roleSubmit
  split
  · next room index heq1 heq2 =>
      split
      · exact hok
      · split
        · exact hok
        · split
          · exact hok
          · split
            · exact hok
            · dsimp only
              split
              · exact roomsOK_setRoom hok
                  (updatePlayer_ne_nil _ _ _ (hok room (getRoom_mem heq1)))
              · exact roomsOK_setRoom hok
                  (updatePlayer_ne_nil _ _ _ (hok room (getRoom_mem heq1)))
  · exact hok



theorem roomsOK_roomRevealConfirm {s : ServerState} (sock code : String)
    (hok : RoomsOK s) : RoomsOK (roomRevealConfirm s sock code).1 := by
  unfold roomRevealConfirm
  split
  · exact hok
  · next room heq =>
      split
      · exact hok
      · split
        · exact hok
        · split
          · exact hok
          · split
            · exact hok
            · exact roomsOK_setRoom hok (hok room (getRoom_mem heq))

theorem roomsOK_removePlayerFromRoom {s : ServerState} (room : Room)
    (pid : String) (sid sock : Option String) (hok : RoomsOK s) :
    RoomsOK (removePlayerFromRoom s room pid sid sock) := by
  unfold removePlayerFromRoom
  split
  · exact hok
  · dsimp only
    split
    · apply roomsOK_delete
      intro r hr
      exact hok r hr
    · next room1 hrm =>
        apply roomsOK_setRoom _ (removeFromRoom_some_ne_nil hrm)
        intro r hr
        exact hok r hr

theorem roomsOK_roomLeave {s : ServerState} (sock : String) (hok : RoomsOK s) :
    RoomsOK (roomLeave s sock) := by
  unfold roomLeave
  split
  · exact hok
  · split
    · dsimp only
      split
      · exact roomsOK_of_rooms_eq rfl hok
      · exact roomsOK_of_rooms_eq rfl hok
    · exact roomsOK_removePlayerFromRoom _ _ _ _ hok

theorem roomsOK_disconnectSocket {s : ServerState} (sock : String) (hok : RoomsOK s) :
    RoomsOK (disconnectSocket s sock) := by
  unfold disconnectSocket
  split
  · exact hok
  · split
    · exact roomsOK_of_rooms_eq rfl hok
    · next room heq =>
        dsimp only
        split
        · exact roomsOK_of_rooms_eq rfl hok
        · apply roomsOK_setRoom _ (updatePlayer_ne_nil _ _ _ (hok room (getRoom_mem heq)))
          intro r hr
          exact hok r hr

theorem roomsOK_graceExpire {s : ServerState} (code pid : String) (hok : RoomsOK s) :
    RoomsOK (graceExpire s code pid) := by
  unfold graceExpire
  split
  · exact hok
  · split
    · exact hok
    · split
      · exact hok
      · dsimp only
        split
        · apply roomsOK_delete
          intro r hr
          exact hok r hr
        · next room1 hrm =>
            apply roomsOK_setRoom _ (removeFromRoom_some_ne_nil hrm)
            intro r hr
            exact hok r hr

theorem roomsOK_reachable (catalog : List Game) (s : ServerState)
    (h : Reachable catalog s) : RoomsOK s := by
  induction h with
  | init => intro r hr; cases hr
  | step hprev hstep ih =>
      cases hstep with
      | restore sock sid => exact roomsOK_sessionRestore sock sid ih
      | create sock name sid pid code hcode hpid => exact roomsOK_roomCreate sock name sid pid code ih
      | join sock code name sid pid hpid => exact roomsOK_roomJoin sock code name sid pid ih
      | selectGame sock code gameId => exact roomsOK_roomSelectGame catalog sock code gameId ih
      | start sock code => exact roomsOK_roomStart sock code ih
      | reset sock code => exact roomsOK_roomReset sock code ih
      | submit sock code roleId => exact roomsOK_roleSubmit catalog sock code roleId ih
      | confirm sock code => exact roomsOK_roomRevealConfirm sock code ih
      | leave sock => exact roomsOK_roomLeave sock ih
      | disc sock => exact roomsOK_disconnectSocket sock ih
      | grace code pid harmed => exact roomsOK_graceExpire code pid ih



/-- Phase of every surviving room is at least its old phase. -/
def phaseLe (s s' : ServerState) : Prop :=
  ∀ code room room', getRoom s code = some room → getRoom s' code = some room' →
    phaseRank room.phase ≤ phaseRank room'.phase

theorem phaseLe_of_rooms_eq {s s' : ServerState} (h : s'.rooms = s.rooms) :
    phaseLe s s' := by
  intro code room room' hr hr'
  unfold getRoom at hr hr'
  rw [h, hr] at hr'
  cases hr'
  exact Nat.le_refl _

theorem phaseLe_refl (s : ServerState) : phaseLe s s :=
  phaseLe_of_rooms_eq rfl

theorem removeFromRoom_fields {room : Room} {pid : String} {room1 : Room}
    (h : removeFromRoom room pid = some room1) :
    room1.phase = room.phase ∧ room1.code = room.code ∧ room1.gameId = room.gameId := by
  unfold removeFromRoom at h
  cases hd : playersDelete room.players pid with
  | nil => rw [hd] at h; cases h
  | cons p rest => rw [hd] at h; cases h; exact ⟨rfl, rfl, rfl⟩

theorem phaseLe_setRoom_same_phase {s : ServerState} {code0 : String}
    {room0 room1 : Room} (h0 : getRoom s code0 = some room0)
    (h1 : room1.code = code0)
    (hp : phaseRank room0.phase ≤ phaseRank room1.phase) :
    phaseLe s (setRoom s code0 room1) := by
  intro c room room' h h'
  rcases getRoom_setRoom_cases h0 h1 h h' with ⟨_, hr, hr'⟩ | hr'
  · subst hr
    subst hr'
    exact hp
  · subst hr'
    exact Nat.le_refl _

theorem phaseLe_bindSession_comp {s : ServerState} {t : ServerState}
    (sid code pid sock : String) (h : phaseLe s t) :
    phaseLe s (bindSession t sid code pid sock) := by
  intro c room room' hr hr'
  rw [getRoom_bindSession] at hr'
  rcases Option.map_eq_some'.mp hr' with ⟨rmid, hmid, hup⟩
  rw [← hup, bindUpd_phase]
  exact h c room rmid hr hmid

theorem phaseLe_roomJoin (s : ServerState) (sock : String) (code name : Option String)
    (sid pid : String) : phaseLe s (roomJoin s sock code name sid pid).1 := by
  unfold roomJoin
  split
  · exact phaseLe_refl s
  · split
    · exact phaseLe_refl s
    · next room heq =>
        dsimp only
        split
        · exact phaseLe_refl s
        · split
          · exact phaseLe_refl s
          · have hc : room.code = code.getD "" := getRoom_code_eq heq
            have h0' : getRoom s room.code = some room := by rw [hc]; exact heq
            exact phaseLe_bindSession_comp _ _ _ _
              (phaseLe_setRoom_same_phase h0' rfl (Nat.le_refl _))

theorem phaseLe_roleSubmit (catalog : List Game) (s : ServerState)
    (sock code roleId : String) : phaseLe s (roleSubmit catalog s sock code roleId).1 := by
  unfold roleSubmit
  split
  · next room index heq1 heq2 =>
      split
      · exact phaseLe_refl s
      · next hphase =>
          split
          · exact phaseLe_refl s
          · split
            · exact phaseLe_refl s
            · split
              · exact phaseLe_refl s
              · dsimp only
                have hroles : room.phase = Phase.roles := by
                  by_contra hne
                  simp [hne] at hphase
                split
                · apply phaseLe_setRoom_same_phase heq1
                  · exact (getRoom_code_eq heq1 : room.code = code)
                  · rw [hroles]
                    exact (by decide : phaseRank Phase.roles ≤ phaseRank Phase.ready)
                · apply phaseLe_setRoom_same_phase heq1
                  · exact (getRoom_code_eq heq1 : room.code = code)
                  · exact Nat.le_refl _
  · exact phaseLe_refl s



theorem phaseLe_rooms_congr {s t t' : ServerState} (h : t'.rooms = t.rooms)
    (hp : phaseLe s t) : phaseLe s t' := by
  intro c room room' hr hr'
  apply hp c room room' hr
  unfold getRoom at hr' ⊢
  rw [← h]
  exact hr'

theorem phaseLe_delete (s : ServerState) (code : String) :
    phaseLe s (deleteRoomByCode s code) := by
  intro c room room' h h'
  rw [getRoom_delete] at h'
  by_cases hc : c = code
  · simp [hc] at h'
  · simp only [if_neg hc] at h'
    rw [h] at h'
    cases h'
    exact Nat.le_refl _

theorem phaseLe_roomRevealConfirm (s : ServerState) (sock code : String) :
    phaseLe s (roomRevealConfirm s sock code).1 := by
  unfold roomRevealConfirm
  split
  · exact phaseLe_refl s
  · next room heq =>
      split
      · exact phaseLe_refl s
      · split
        · exact phaseLe_refl s
        · split
          · exact phaseLe_refl s
          · next hphase =>
              split
              · exact phaseLe_refl s
              · have hready : room.phase = Phase.ready := by
                  by_contra hne
                  simp [hne] at hphase
                apply phaseLe_setRoom_same_phase heq
                · exact (getRoom_code_eq heq : room.code = code)
                · rw [hready]
                  exact (by decide : phaseRank Phase.ready ≤ phaseRank Phase.reveal)

theorem phaseLe_removePlayerFromRoom {s : ServerState} {room : Room}
    (pid : String) (sid sock : Option String)
    (h0 : getRoom s room.code = some room) :
    phaseLe s (removePlayerFromRoom s room pid sid sock) := by
  unfold removePlayerFromRoom
  split
  · exact phaseLe_refl s
  · dsimp only
    split
    · next hrm =>
        exact phaseLe_rooms_congr rfl (phaseLe_delete s room.code)
    · next room1 hrm =>
        apply phaseLe_rooms_congr rfl
        apply phaseLe_setRoom_same_phase h0
        · exact (removeFromRoom_fields hrm).2.1
        · exact Nat.le_of_eq (congrArg phaseRank (removeFromRoom_fields hrm).1.symm)

theorem phaseLe_roomLeave (s : ServerState) (sock : String) :
    phaseLe s (roomLeave s sock) := by
  unfold roomLeave
  split
  · exact phaseLe_refl s
  · split
    · dsimp only
      split
      · exact phaseLe_of_rooms_eq rfl
      · exact phaseLe_of_rooms_eq rfl
    · next index room heq1 heq2 =>
        apply phaseLe_removePlayerFromRoom
        rw [getRoom_code_eq heq2]
        exact heq2

theorem phaseLe_graceExpire (s : ServerState) (code pid : String) :
    phaseLe s (graceExpire s code pid) := by
  unfold graceExpire
  split
  · exact phaseLe_refl s
  · next room heq =>
      split
      · exact phaseLe_refl s
      · split
        · exact phaseLe_refl s
        · dsimp only
          split
          · exact phaseLe_rooms_congr rfl (phaseLe_delete s code)
          · next room1 hrm =>
              apply phaseLe_rooms_congr rfl
              apply phaseLe_setRoom_same_phase heq
              · rw [(removeFromRoom_fields hrm).2.1]
                exact (getRoom_code_eq heq : room.code = code)
              · exact Nat.le_of_eq (congrArg phaseRank (removeFromRoom_fields hrm).1.symm)



/-- The room's `ownerId` names a player currently in the room. -/
def ownerOk (room : Room) : Prop :=
  ∃ p ∈ room.players, p.id = room.ownerId

/-- Every stored room satisfies the owner invariant. -/
def OwnersOK (s : ServerState) : Prop :=
  ∀ r ∈ s.rooms, ownerOk r

theorem removeFromRoom_owner {room : Room} {pid : String} {room1 : Room}
    (hown : ownerOk room) (h : removeFromRoom room pid = some room1) :
    ownerOk room1 ∧
      (room.ownerId = pid →
        ∃ p rest, room1.players = p :: rest ∧ room1.ownerId = p.id) := by
  unfold removeFromRoom at h
  cases hd : playersDelete room.players pid with
  | nil => rw [hd] at h; cases h
  | cons p rest =>
      rw [hd] at h
      cases h
      constructor
      · cases hb : (room.ownerId == pid) with
        | true =>
            refine ⟨p, List.mem_cons_self p rest, ?_⟩
            simp [hb]
        | false =>
            obtain ⟨q, hq, hqid⟩ := hown
            have hqpid : ¬ (q.id == pid) = true := by
              rw [hqid, hb]
              simp
            have hqmem : q ∈ playersDelete room.players pid := by
              unfold playersDelete
              rw [List.mem_filter]
              exact ⟨hq, by simp [hqpid]⟩
            rw [hd] at hqmem
            refine ⟨q, hqmem, ?_⟩
            simp [hb, hqid]
      · intro howner
        refine ⟨p, rest, rfl, ?_⟩
        simp [howner]

theorem ownerOk_after_removePlayer {s : ServerState} {room : Room} {pid : String}
    {sid sock : Option String} {c : String} {room'' : Room}
    (hall : OwnersOK s) (hroom : ownerOk room)
    (h'' : getRoom (removePlayerFromRoom s room pid sid sock) c = some room'') :
    ownerOk room'' := by
  unfold removePlayerFromRoom at h''
  split at h''
  · exact hall room'' (getRoom_mem h'')
  · dsimp only at h''
    split at h''
    · next hrm =>
        have hdel : getRoom (deleteRoomByCode s room.code) c = some room'' := h''
        rw [getRoom_delete] at hdel
        by_cases hc : c = room.code
        · simp [hc] at hdel
        · simp only [if_neg hc] at hdel
          exact hall room'' (getRoom_mem hdel)
    · next room1 hrm =>
        have h1code : room1.code = room.code := (removeFromRoom_fields hrm).2.1
        have hset : getRoom (setRoom s room.code room1) c = some room'' := h''
        rw [getRoom_setRoom s room.code room1 c h1code] at hset
        rcases Option.map_eq_some'.mp hset with ⟨r0, hr0, hup⟩
        by_cases hr0c : r0.code = room.code
        · rw [← hup]
          simp only [hr0c, beq_self_eq_true, if_true]
          exact (removeFromRoom_owner hroom hrm).1
        · rw [← hup]
          have : (r0.code == room.code) = false := by
            simp [hr0c]
          simp only [this, Bool.false_eq_true, if_false]
          exact hall r0 (getRoom_mem hr0)



theorem ownerOk_after_roomLeave {s : ServerState} {sock : String}
    {c : String} {room'' : Room} (hall : OwnersOK s)
    (h'' : getRoom (roomLeave s sock) c = some room'') : ownerOk room'' := by
  unfold roomLeave at h''
  split at h''
  · exact hall room'' (getRoom_mem h'')
  · next index heqidx =>
      split at h''
      · dsimp only at h''
        split at h''
        · exact hall room'' (getRoom_mem h'')
        · exact hall room'' (getRoom_mem h'')
      · next room heq2 =>
          exact ownerOk_after_removePlayer hall (hall room (getRoom_mem heq2)) h''

theorem ownerOk_after_graceExpire {s : ServerState} {code pid : String}
    {c : String} {room'' : Room} (hall : OwnersOK s)
    (h'' : getRoom (graceExpire s code pid) c = some room'') : ownerOk room'' := by
  unfold graceExpire at h''
  split at h''
  · exact hall room'' (getRoom_mem h'')
  · next room heq =>
      split at h''
      · exact hall room'' (getRoom_mem h'')
      · split at h''
        · exact hall room'' (getRoom_mem h'')
        · dsimp only at h''
          split at h''
          · next hrm =>
              have hdel : getRoom (deleteRoomByCode s code) c = some room'' := h''
              rw [getRoom_delete] at hdel
              by_cases hc : c = code
              · simp [hc] at hdel
              · simp only [if_neg hc] at hdel
                exact hall room'' (getRoom_mem hdel)
          · next room1 hrm =>
              have hcode : room.code = code := getRoom_code_eq heq
              have h1code : room1.code = code := by
                rw [(removeFromRoom_fields hrm).2.1, hcode]
              have hset : getRoom (setRoom s code room1) c = some room'' := h''
              rw [getRoom_setRoom s code room1 c h1code] at hset
              rcases Option.map_eq_some'.mp hset with ⟨r0, hr0, hup⟩
              by_cases hr0c : r0.code = code
              · rw [← hup]
                simp only [hr0c, beq_self_eq_true, if_true]
                exact (removeFromRoom_owner (hall room (getRoom_mem heq)) hrm).1
              · rw [← hup]
                have hne : (r0.code == code) = false := by simp [hr0c]
                simp only [hne, Bool.false_eq_true, if_false]
                exact hall r0 (getRoom_mem hr0)



/-! ### Concrete instances used by witnesses and counterexamples -/

def demoGame : Game :=
  { id := "g1", name := "Game1",
    roles := [{ id := "r1", name := "Role1", partyId := none },
              { id := "r2", name := "Role2", partyId := none }],
    revealRules := [] }

def demoCatalog : List Game := [demoGame]

def demoS1 : ServerState :=
  (roomCreate initialState "sockA" (some "Alice") "sess1" "pidA" "1234").1

def demoS1J : ServerState :=
  (roomJoin demoS1 "sockB" (some "1234") (some "Bob") "sessB" "pidB").1

def demoS2 : ServerState :=
  (roomSelectGame demoCatalog demoS1J "sockA" "1234" "g1").1

def demoS3 : ServerState :=
  (roomStart demoS2 "sockA" "1234").1

def demoS4 : ServerState :=
  (roomSelectGame demoCatalog demoS3 "sockA" "1234" "g1").1

def demoS5 : ServerState :=
  (roleSubmit demoCatalog demoS3 "sockA" "1234" "r1").1

def demoPlayerA : Player :=
  { id := "pidA", name := "Alice", socketId := "sockA", sessionId := "sess1",
    roleId := none, hasSubmittedRole := false, connected := true,
    disconnectTimer := false }

def demoPlayerB : Player :=
  { id := "pidB", name := "Bob", socketId := "sockB", sessionId := "sessB",
    roleId := none, hasSubmittedRole := false, connected := true,
    disconnectTimer := false }

def demoRoom1 : Room :=
  { code := "1234", ownerId := "pidA", gameId := none, phase := Phase.lobby,
    players := [demoPlayerA] }

def demoRoom3 : Room :=
  { code := "1234", ownerId := "pidA", gameId := some "g1", phase := Phase.roles,
    players := [demoPlayerA, demoPlayerB] }

def demoRoom5 : Room :=
  { code := "1234", ownerId := "pidA", gameId := some "g1", phase := Phase.roles,
    players := [{ demoPlayerA with roleId := some "r1", hasSubmittedRole := true },
                demoPlayerB] }

def demoRoom3Minus : Room :=
  { code := "1234", ownerId := "pidB", gameId := some "g1", phase := Phase.roles,
    players := [demoPlayerB] }

/-! ### Claim C3 -/

/-- C3: after any departure (explicit leave or disconnect-grace expiry) that
leaves the room nonempty, `room.ownerId` names a player still present, and
when the departing player was the owner, ownership transfers to the
earliest-joined (first in insertion order) remaining player.  Stated for
the shared room-level removal `removeFromRoom` and for the two state-level
departure paths `roomLeave` and `graceExpire`. -/
theorem claim_C3 :
    (∀ (room : Room) (pid : String) (room1 : Room),
      ownerOk room → removeFromRoom room pid = some room1 →
        ownerOk room1 ∧
          (room.ownerId = pid →
            ∃ p rest, room1.players = p :: rest ∧ room1.ownerId = p.id)) ∧
    (∀ (s : ServerState) (sock c : String) (room'' : Room),
      OwnersOK s → getRoom (roomLeave s sock) c = some room'' → ownerOk room'') ∧
    (∀ (s : ServerState) (code pid c : String) (room'' : Room),
      OwnersOK s → getRoom (graceExpire s code pid) c = some room'' → ownerOk room'') :=
  ⟨fun _ _ _ h1 h2 => removeFromRoom_owner h1 h2,
   fun _ _ _ _ h1 h2 => ownerOk_after_roomLeave h1 h2,
   fun _ _ _ _ _ h1 h2 => ownerOk_after_graceExpire h1 h2⟩

/-- Witness for C3: removing the owner from a concrete two-player room
keeps the owner invariant and transfers ownership to the first remaining
player. -/
theorem claim_C3_witness :
    ownerOk demoRoom3Minus ∧
      (demoRoom3.ownerId = "pidA" →
        ∃ p rest, demoRoom3Minus.players = p :: rest ∧ demoRoom3Minus.ownerId = p.id) :=
  claim_C3.1 demoRoom3 "pidA" demoRoom3Minus
    (by unfold ownerOk; decide) (by decide)

/-! ### Claim C4 -/

/-- C4: a room with zero players is never retained: every reachable state
stores only nonempty rooms, and on both departure paths (explicit leave via
`removePlayerFromRoom`, and the disconnect-grace callback `graceExpire`),
removing the last player deletes the room, so looking its code up afterwards
returns `none`. -/
theorem claim_C4 (catalog : List Game) :
    (∀ s, Reachable catalog s → ∀ r ∈ s.rooms, r.players ≠ []) ∧
    (∀ (s : ServerState) (room : Room) (pid : String) (sid sock : Option String),
      playersGet room.players pid ≠ none →
      playersDelete room.players pid = [] →
      getRoom (removePlayerFromRoom s room pid sid sock) room.code = none) ∧
    (∀ (s : ServerState) (code pid : String) (room : Room) (player : Player),
      getRoom s code = some room →
      playersGet room.players pid = some player →
      player.connected = false →
      playersDelete room.players pid = [] →
      getRoom (graceExpire s code pid) code = none) := by
  refine ⟨fun s h => roomsOK_reachable catalog s h, ?_, ?_⟩
  · intro s room pid sid sock hget hdel
    obtain ⟨player, hp⟩ := Option.ne_none_iff_exists'.mp hget
    unfold removePlayerFromRoom
    rw [hp]
    dsimp only
    unfold removeFromRoom
    rw [hdel]
    dsimp only
    rw [getRoom_delete]
    simp
  · intro s code pid room player hget hp hconn hdel
    unfold graceExpire
    rw [hget]
    dsimp only
    rw [hp]
    dsimp only
    simp only [hconn, Bool.false_eq_true, if_false]
    unfold removeFromRoom
    rw [hdel]
    dsimp only
    rw [getRoom_delete]
    simp

/-- Witness for C4: a concrete reachable one-room state whose room is
nonempty, through the reachable-invariant part of the theorem. -/
theorem claim_C4_witness : demoRoom1.players ≠ [] :=
  (claim_C4 demoCatalog).1 demoS1
    (Reachable.step Reachable.init
      (Step.create initialState "sockA" (some "Alice") "sess1" "pidA" "1234"
        rfl rfl))
    demoRoom1 (by decide)

/-! ### Claim C9 -/

/-- C9: for every draw sequence that eventually produces a fresh code, the
code returned by `generateRoomCode` is never a live room's code. -/
theorem claim_C9 (rooms : List Room) (draws : Nat → String)
    (h : ∃ n, hasRoomCode rooms (draws n) = false) :
    hasRoomCode rooms (generateRoomCode rooms draws h) = false ∧
    ∀ r ∈ rooms, r.code ≠ generateRoomCode rooms draws h := by
  constructor
  · exact Nat.find_spec h
  · intro r hr hEq
    have hspec : hasRoomCode rooms (draws (Nat.find h)) = false := Nat.find_spec h
    unfold hasRoomCode at hspec
    rw [List.any_eq_false] at hspec
    unfold generateRoomCode at hEq
    exact hspec r hr (beq_iff_eq.mpr hEq)

def demoDraws : Nat → String := fun n => if n = 0 then "1234" else "5678"

def demoDrawsFresh : ∃ n, hasRoomCode demoS1.rooms (demoDraws n) = false :=
  ⟨1, by decide⟩

/-- Witness for C9: with one live room coded `"1234"` and a draw sequence
that first collides and then draws `"5678"`, the generated code is fresh. -/
theorem claim_C9_witness :
    hasRoomCode demoS1.rooms
        (generateRoomCode demoS1.rooms demoDraws demoDrawsFresh) = false ∧
      ∀ r ∈ demoS1.rooms,
        r.code ≠ generateRoomCode demoS1.rooms demoDraws demoDrawsFresh :=
  claim_C9 demoS1.rooms demoDraws demoDrawsFresh



/-- C5: a successful `role:submit` advances the room to `ready` exactly
when, after recording that submission, every player in the room has
`hasSubmittedRole = true`; otherwise the phase stays `roles`. -/
theorem claim_C5 (catalog : List Game) (s : ServerState) (sock code roleId : String)
    (s' : ServerState) (room room' : Room)
    (hrun : roleSubmit catalog s sock code roleId = (s', none))
    (hroom : getRoom s code = some room)
    (hroom' : getRoom s' code = some room') :
    (room'.phase = Phase.ready ↔
      room'.players.all (fun p => p.hasSubmittedRole) = true) ∧
    (room'.players.all (fun p => p.hasSubmittedRole) = false →
      room'.phase = Phase.roles) := by
  unfold roleSubmit at hrun
  split at hrun
  case h_2 => exact absurd (congrArg Prod.snd hrun) (by simp)
  case h_1 room0 index heq1 heq2 =>
    rw [heq1] at hroom
    cases hroom
    split at hrun
    · exact absurd (congrArg Prod.snd hrun) (by simp)
    · next hphase =>
        split at hrun
        · exact absurd (congrArg Prod.snd hrun) (by simp)
        · split at hrun
          · exact absurd (congrArg Prod.snd hrun) (by simp)
          · split at hrun
            · exact absurd (congrArg Prod.snd hrun) (by simp)
            · dsimp only at hrun
              have hroles : room.phase = Phase.roles := by
                by_contra hne
                simp [hne] at hphase
              split at hrun
              · next hall =>
                  injection hrun with hs' _
                  subst hs'
                  rw [getRoom_setRoom_self heq1] at hroom'
                  · cases hroom'
                    refine ⟨⟨fun _ => hall, fun _ => rfl⟩, ?_⟩
                    intro hfalse
                    rw [hall] at hfalse
                    cases hfalse
                  · exact (getRoom_code_eq heq1 : room.code = code)
              · next hall =>
                  injection hrun with hs' _
                  subst hs'
                  rw [getRoom_setRoom_self heq1] at hroom'
                  rotate_left
                  · exact (getRoom_code_eq heq1 : room.code = code)
                  cases hroom'
                  have hallf : ((updatePlayer room.players index.playerId (fun p =>
                      { p with roleId := some roleId, hasSubmittedRole := true })).all
                        (fun p => p.hasSubmittedRole)) = false := by
                    by_contra hx
                    simp only [Bool.not_eq_false] at hx
                    exact hall hx
                  refine ⟨⟨?_, ?_⟩, ?_⟩
                  · intro hready
                    rw [hroles] at hready
                    cases hready
                  · intro htrue
                    rw [hallf] at htrue
                    cases htrue
                  · intro _
                    exact hroles

/-- Witness for C5: in a concrete two-player room in phase `roles`, the
first player's successful submission leaves the phase at `roles` because
the second player has not submitted. -/
theorem claim_C5_witness :
    (demoRoom5.phase = Phase.ready ↔
      demoRoom5.players.all (fun p => p.hasSubmittedRole) = true) ∧
    (demoRoom5.players.all (fun p => p.hasSubmittedRole) = false →
      demoRoom5.phase = Phase.roles) :=
  claim_C5 demoCatalog demoS3 "sockA" "1234" "r1" demoS5 demoRoom3 demoRoom5
    (by decide) (by decide) (by decide)



/-! ### Claim C2 -/

/-- C2 (counterexample): the claim "only reset moves the phase backward" is
false: in a reachable state whose room is in phase `roles`, the owner's
`room:selectGame` request succeeds and sets the phase back to `lobby`. -/
theorem claim_C2_counterexample :
    Reachable demoCatalog demoS3 ∧
    (getRoom demoS3 "1234").map (fun r => r.phase) = some Phase.roles ∧
    Step demoCatalog demoS3 demoS4 ∧
    demoS4 = (roomSelectGame demoCatalog demoS3 "sockA" "1234" "g1").1 ∧
    (getRoom demoS4 "1234").map (fun r => r.phase) = some Phase.lobby ∧
    phaseRank Phase.lobby < phaseRank Phase.roles := by
  refine ⟨?_, by decide, ?_, rfl, by decide, by decide⟩
  · exact Reachable.step (Reachable.step (Reachable.step (Reachable.step
      Reachable.init
      (Step.create initialState "sockA" (some "Alice") "sess1" "pidA" "1234"
        rfl rfl))
      (Step.join demoS1 "sockB" (some "1234") (some "Bob") "sessB" "pidB"
        (by decide)))
      (Step.selectGame demoS1J "sockA" "1234" "g1"))
      (Step.start demoS2 "sockA" "1234")
  · exact Step.selectGame demoS3 "sockA" "1234" "g1"

/-- C2 (amended): among the listed operations, `role:submit`,
`room:revealConfirm`, `room:join`, `room:leave` and the disconnect-grace
expiry never move a surviving room's phase backward; `room:selectGame` and
`room:start` are exceptions — they carry no phase guard and unconditionally
set the phase to `lobby` resp. `roles`, so they (besides `room:reset`) can
also move the phase backward. -/
theorem claim_C2_amended (catalog : List Game) (s : ServerState)
    (sock roleId codeStr pidStr : String) (codeOpt nameOpt : Option String)
    (sid pid : String) :
    phaseLe s (roomJoin s sock codeOpt nameOpt sid pid).1 ∧
    phaseLe s (roleSubmit catalog s sock codeStr roleId).1 ∧
    phaseLe s (roomRevealConfirm s sock codeStr).1 ∧
    phaseLe s (roomLeave s sock) ∧
    phaseLe s (graceExpire s codeStr pidStr) :=
  ⟨phaseLe_roomJoin s sock codeOpt nameOpt sid pid,
   phaseLe_roleSubmit catalog s sock codeStr roleId,
   phaseLe_roomRevealConfirm s sock codeStr,
   phaseLe_roomLeave s sock,
   phaseLe_graceExpire s codeStr pidStr⟩

/-- Witness for the amended C2: a concrete successful submission in a
two-player room keeps the phase at `roles` (rank does not decrease). -/
theorem claim_C2_amended_witness :
    phaseRank demoRoom3.phase ≤ phaseRank demoRoom5.phase :=
  (claim_C2_amended demoCatalog demoS3 "sockA" "r1" "1234" "pidX" none none
      "sid" "pid").2.1
    "1234" demoRoom3 demoRoom5 (by decide) (by decide)



/-! ### Claim C6 -/

theorem serialize_players_congr {l1 l2 : List Player}
    (h : List.Forall₂ (fun p q : Player =>
      p.id = q.id ∧ p.name = q.name ∧ p.socketId = q.socketId ∧
      p.sessionId = q.sessionId ∧ p.hasSubmittedRole = q.hasSubmittedRole ∧
      p.connected = q.connected ∧ p.disconnectTimer = q.disconnectTimer) l1 l2) :
    l1.map (fun p => PlayerPublic.mk p.id p.name p.hasSubmittedRole) =
      l2.map (fun p => PlayerPublic.mk p.id p.name p.hasSubmittedRole) := by
  induction h with
  | nil => rfl
  | cons hpq htail ih =>
      simp only [List.map_cons, ih, List.cons.injEq, and_true]
      obtain ⟨h1, h2, _, _, h5, _, _⟩ := hpq
      simp [h1, h2, h5]

/-- C6: the `room:state` broadcast never leaks a roleId: each serialized
player carries exactly id, name and hasSubmittedRole, and two rooms that
differ only in their players' `roleId` fields serialize identically. -/
theorem claim_C6 :
    (∀ room : Room, (serializeRoom room).players =
      room.players.map (fun p => PlayerPublic.mk p.id p.name p.hasSubmittedRole)) ∧
    (∀ r1 r2 : Room, r1.code = r2.code → r1.ownerId = r2.ownerId →
      r1.gameId = r2.gameId → r1.phase = r2.phase →
      List.Forall₂ (fun p q : Player =>
        p.id = q.id ∧ p.name = q.name ∧ p.socketId = q.socketId ∧
        p.sessionId = q.sessionId ∧ p.hasSubmittedRole = q.hasSubmittedRole ∧
        p.connected = q.connected ∧ p.disconnectTimer = q.disconnectTimer)
        r1.players r2.players →
      serializeRoom r1 = serializeRoom r2) := by
  constructor
  · intro room
    rfl
  · intro r1 r2 h1 h2 h3 h4 hf
    simp only [serializeRoom, RoomStatePayload.mk.injEq]
    exact ⟨h1, h2, h3, h4, serialize_players_congr hf⟩

def demoRoom5X : Room :=
  { code := "1234", ownerId := "pidA", gameId := some "g1", phase := Phase.roles,
    players := [{ demoPlayerA with roleId := some "r2", hasSubmittedRole := true },
                { demoPlayerB with roleId := some "r1" }] }

/-- Witness for C6: two concrete rooms that differ only in roleIds produce
the same broadcast payload. -/
theorem claim_C6_witness : serializeRoom demoRoom5 = serializeRoom demoRoom5X :=
  claim_C6.2 demoRoom5 demoRoom5X rfl rfl rfl rfl
    (List.Forall₂.cons (by decide)
      (List.Forall₂.cons (by decide) List.Forall₂.nil))



/-! ### Claim C7 -/

/-- C7 (amended): a join request naming an existing room whose phase is not
`lobby` is always rejected with the room state unchanged, but the error is
not always `GameAlreadyStarted`: the handler checks the name collision
first, so a colliding name yields the `NameTaken` error (and a missing
code/name yields the missing-fields error); only otherwise is the error
`GameAlreadyStarted`. -/
theorem claim_C7_amended (s : ServerState) (sock : String) (c : String)
    (name : Option String) (sid pid : String) (room : Room)
    (hroom : getRoom s c = some room) (hphase : room.phase ≠ Phase.lobby) :
    roomJoin s sock (some c) name sid pid =
      (s, some (if ((c == "") || falsy name) then "Code and name are required"
        else if room.players.any (fun p =>
            normalizeName p.name == normalizeName (name.getD "")) then
          "That name is already taken in this room"
        else "Game already started")) := by
  unfold roomJoin
  cases hc : (c == "") with
  | true => simp [falsy, hc]
  | false =>
      cases hn : falsy name with
      | true => simp [falsy, hc, hn]
      | false =>
          simp only [falsy, hc, hn, Bool.or_false, Bool.false_eq_true, if_false]
          have hget : getRoom s ((some c).getD "") = some room := hroom
          rw [hget]
          dsimp only
          cases ht : room.players.any (fun p =>
              normalizeName p.name == normalizeName (name.getD "")) with
          | true => simp [ht]
          | false =>
              have hlob : (room.phase == Phase.lobby) = false := by
                simp only [beq_eq_false_iff_ne, ne_eq]
                exact hphase
              simp [ht, hlob]

/-- Witness for the amended C7: joining the concrete in-progress room with
the fresh name Carol is rejected with the game-already-started error and
leaves the state untouched. -/
theorem claim_C7_amended_witness :
    roomJoin demoS3 "sockC" (some "1234") (some "Carol") "sessC" "pidC" =
      (demoS3, some "Game already started") := by
  have h := claim_C7_amended demoS3 "sockC" "1234" (some "Carol") "sessC" "pidC"
      demoRoom3 (by decide) (by decide)
  rw [h]
  decide

/-- C7 (counterexample): the claim predicts `GameAlreadyStarted` for every
name, but joining the in-progress room with the colliding name `"alice"`
is rejected with the name-taken error instead. -/
theorem claim_C7_counterexample :
    (getRoom demoS3 "1234").map (fun r => r.phase) = some Phase.roles ∧
    roomJoin demoS3 "sock2" (some "1234") (some "alice") "sess2" "pid2" =
      (demoS3, some "That name is already taken in this room") ∧
    "That name is already taken in this room" ≠ "Game already started" := by
  refine ⟨by decide, by decide, by decide⟩



/-! ### Claim C8 -/

theorem getRoom_roomsSet_fresh (s : ServerState) (code : String) (R : Room)
    (hc : R.code = code)
    (hany : (s.rooms.any (fun r => r.code == code)) = false)
    (hnone : getRoom s code = none) :
    getRoom { s with rooms := roomsSet s.rooms code R } code = some R := by
  unfold roomsSet
  simp only [hany, Bool.false_eq_true, if_false]
  rw [getRoom_append]
  simp [hnone, hc]

/-- C8 (amended): `room:create` validates only JavaScript truthiness of the
name: it fails (with "Name is required", leaving the state unchanged) iff
the name is absent or the empty string; any other name — including
whitespace-only names and names whose trimmed length exceeds 10 — creates
a lobby room owned by the new player.  No trimmed-length 1-10 validation
exists in the handler. -/
theorem claim_C8_amended (s : ServerState) (sock : String) (name : Option String)
    (sid pid code : String) (hcode : getRoom s code = none) :
    (falsy name = true →
      roomCreate s sock name sid pid code = (s, some "Name is required")) ∧
    (falsy name = false →
      (roomCreate s sock name sid pid code).2 = none ∧
      ∃ room, getRoom (roomCreate s sock name sid pid code).1 code = some room ∧
        room.phase = Phase.lobby ∧ room.ownerId = pid ∧
        room.players.map (fun p => p.name) = [name.getD ""]) := by
  have hany : (s.rooms.any (fun r => r.code == code)) = false := by
    rw [List.any_eq_false]
    intro r hr
    unfold getRoom findRoom at hcode
    have := List.find?_eq_none.mp hcode r hr
    simpa using this
  constructor
  · intro h
    unfold roomCreate
    simp [h]
  · intro h
    unfold roomCreate
    simp only [h, Bool.false_eq_true, if_false]
    refine ⟨?_, ?_⟩
    · simp
    · dsimp only
      rw [getRoom_bindSession, getRoom_roomsSet_fresh]
      · simp only [Option.map_some']
        refine ⟨_, rfl, ?_, ?_, ?_⟩
        · simp [bindUpd]
        · simp [bindUpd, createPlayer]
        · simp [bindUpd, updatePlayer, createPlayer]
      · rfl
      · exact hany
      · exact hcode



/-- Witness for the amended C8: an 11-character name (trimmed length 11)
creates a room anyway. -/
theorem claim_C8_amended_witness :
    (roomCreate initialState "s1" (some "abcdefghijk") "sess" "pid" "1234").2 = none ∧
    ∃ room, getRoom
        (roomCreate initialState "s1" (some "abcdefghijk") "sess" "pid" "1234").1
        "1234" = some room ∧
      room.phase = Phase.lobby ∧ room.ownerId = "pid" ∧
      room.players.map (fun p => p.name) = [(some "abcdefghijk").getD ""] :=
  (claim_C8_amended initialState "s1" (some "abcdefghijk") "sess" "pid" "1234"
    rfl).2 (by decide)

/-- C8 (counterexample): the claim demands an `InvalidName` failure for the
11-character name `"abcdefghijk"` (trimmed length 11 > 10), but the handler
accepts it: no error is emitted and a room is created. -/
theorem claim_C8_counterexample :
    (trimString "abcdefghijk").length > 10 ∧
    (roomCreate initialState "s1" (some "abcdefghijk") "sess" "pid" "1234").2 = none ∧
    (getRoom (roomCreate initialState "s1" (some "abcdefghijk") "sess" "pid"
      "1234").1 "1234").isSome = true := by
  refine ⟨by decide, by decide, by decide⟩



/-! ### Claims C1 and C10: the reveal computation -/

theorem any_payload_self_iff {room : Room} {player : Player} (f : Player → Bool)
    (hmem : player ∈ room.players)
    (hnodup : (room.players.map (fun p => p.id)).Nodup) :
    (((room.players.filter f).map toVisibleEntry).any
        (fun e => e.playerId == player.id)) = true ↔ f player = true := by
  rw [List.any_eq_true]
  constructor
  · rintro ⟨x, hxm, hxp⟩
    obtain ⟨y, hyf, rfl⟩ := List.mem_map.mp hxm
    rw [List.mem_filter] at hyf
    have hyid : y.id = player.id := eq_of_beq hxp
    have hy : y = player := List.inj_on_of_nodup_map hnodup hyf.1 hmem hyid
    rw [← hy]
    exact hyf.2
  · intro hf
    refine ⟨toVisibleEntry player,
      List.mem_map.mpr ⟨player, List.mem_filter.mpr ⟨hmem, hf⟩, rfl⟩, ?_⟩
    simp [toVisibleEntry]

/-- C1 (amended): in custom scope the acting player's own entry appears in
the reveal payload iff `includeSelf` is set **or** the player's own roleId
is listed in `visibleRoleIds` **or** the player's role has a (nonempty)
partyId listed in `visiblePartyIds` — self-visibility is *not* exclusively
controlled by `includeSelf`. -/
theorem claim_C1_amended (catalog : List Game) (room : Room) (player : Player)
    (game : Game) (rule : RevealRule)
    (hgame : lookupGame catalog room.gameId = some game)
    (hrule : game.revealRules.find?
      (fun e => some e.roleId == player.roleId) = some rule)
    (hall : rule.scope ≠ some "all") (hself : rule.scope ≠ some "self")
    (hmem : player ∈ room.players)
    (hnodup : (room.players.map (fun p => p.id)).Nodup) :
    ((getRevealForPlayer catalog room player).visiblePlayers.any
        (fun e => e.playerId == player.id)) = true ↔
      (rule.includeSelf = true ∨
       (∃ rid, player.roleId = some rid ∧ rid ∈ rule.visibleRoleIds) ∨
       (∃ role pid, lookupRoleOf game player.roleId = some role ∧
         role.partyId = some pid ∧ ¬ pid = "" ∧ pid ∈ rule.visiblePartyIds)) := by
  have hfr : findRule game player.roleId = rule := by
    unfold findRule
    rw [hrule]
    rfl
  unfold getRevealForPlayer
  rw [hgame]
  dsimp only
  rw [hfr]
  have hA : (rule.scope == some "all") = false := by
    simp only [beq_eq_false_iff_ne, ne_eq]
    exact hall
  have hS : (rule.scope == some "self") = false := by
    simp only [beq_eq_false_iff_ne, ne_eq]
    exact hself
  simp only [hA, hS, Bool.false_eq_true, if_false]
  rw [any_payload_self_iff _ hmem hnodup]
  unfold customVisibleFilter
  cases hinc : rule.includeSelf with
  | true => simp [hinc]
  | false =>
      simp only [hinc, Bool.false_and, Bool.false_eq_true, if_false, false_or]
      cases hrid : player.roleId with
      | none => simp [lookupRoleOf]
      | some rid =>
          cases hrole : lookupRoleOf game (some rid) with
          | none =>
              simp [hrole, List.elem_iff]
          | some role =>
              cases hp : role.partyId with
              | none => simp [hrole, hp, List.elem_iff]
              | some pid =>
                  by_cases hpe : pid = ""
                  · simp [hrole, hp, hpe, List.elem_iff]
                  · simp [hrole, hp, hpe, List.elem_iff]



def cRule : RevealRule :=
  { roleId := "r", scope := some "custom", visibleRoleIds := ["r"],
    visiblePartyIds := [], includeSelf := false }

def cGame : Game :=
  { id := "g", name := "G",
    roles := [{ id := "r", name := "R", partyId := none }],
    revealRules := [cRule] }

def cPlayerA : Player :=
  { id := "A", name := "Alice", socketId := "s1", sessionId := "t1",
    roleId := some "r", hasSubmittedRole := true, connected := true,
    disconnectTimer := false }

def cRoom : Room :=
  { code := "1", ownerId := "A", gameId := some "g", phase := Phase.reveal,
    players := [cPlayerA] }

/-- C1 (counterexample): under the custom rule for role `"r"` with
`includeSelf = false` but `visibleRoleIds = ["r"]`, the acting player (who
holds role `"r"`) appears in their own reveal payload, so membership of the
own roleId in `visibleRoleIds` does add the acting player's own entry even
though `includeSelf` is false. -/
theorem claim_C1_counterexample :
    cGame.revealRules.find?
        (fun e => some e.roleId == cPlayerA.roleId) = some cRule ∧
    cRule.scope = some "custom" ∧ cRule.includeSelf = false ∧
    (getRevealForPlayer [cGame] cRoom cPlayerA).visiblePlayers.map
        (fun e => e.playerId) = ["A"] ∧
    cPlayerA.id = "A" := by
  refine ⟨by decide, by decide, by decide, by decide, by decide⟩

/-- Witness for the amended C1 at the same concrete instance: the acting
player's entry is present and, matching the amended equivalence, the
own-roleId clause holds. -/
theorem claim_C1_amended_witness :
    ((getRevealForPlayer [cGame] cRoom cPlayerA).visiblePlayers.any
        (fun e => e.playerId == cPlayerA.id)) = true ↔
      (cRule.includeSelf = true ∨
       (∃ rid, cPlayerA.roleId = some rid ∧ rid ∈ cRule.visibleRoleIds) ∨
       (∃ role pid, lookupRoleOf cGame cPlayerA.roleId = some role ∧
         role.partyId = some pid ∧ ¬ pid = "" ∧ pid ∈ cRule.visiblePartyIds)) :=
  claim_C1_amended [cGame] cRoom cPlayerA cGame cRule
    (by decide) (by decide) (by decide) (by decide) (by decide) (by decide)

/-- C10: a `revealRules` entry that matches the acting player's roleId but
carries no `scope` field is evaluated as a custom-scope rule (the filter
over `visibleRoleIds`/`visiblePartyIds`/`includeSelf`), not as the
self-scope default; the self default applies only when no entry matches. -/
theorem claim_C10 (catalog : List Game) (room : Room) (player : Player)
    (game : Game) (rule : RevealRule)
    (hgame : lookupGame catalog room.gameId = some game) :
    (game.revealRules.find?
        (fun e => some e.roleId == player.roleId) = some rule →
      rule.scope = none →
      getRevealForPlayer catalog room player =
        { gameId := room.gameId,
          visiblePlayers :=
            (room.players.filter
              (customVisibleFilter game rule player.id)).map toVisibleEntry }) ∧
    (game.revealRules.find?
        (fun e => some e.roleId == player.roleId) = none →
      getRevealForPlayer catalog room player =
        { gameId := room.gameId,
          visiblePlayers := [toVisibleEntry player] }) := by
  constructor
  · intro hrule hscope
    have hfr : findRule game player.roleId = rule := by
      unfold findRule
      rw [hrule]
      rfl
    unfold getRevealForPlayer
    rw [hgame]
    dsimp only
    rw [hfr]
    simp [hscope]
  · intro hnone
    have hfr : findRule game player.roleId =
        { roleId := "", scope := some "self", visibleRoleIds := [],
          visiblePartyIds := [], includeSelf := false } := by
      unfold findRule
      rw [hnone]
      rfl
    unfold getRevealForPlayer
    rw [hgame]
    dsimp only
    rw [hfr]
    simp

def nRule : RevealRule :=
  { roleId := "r", scope := none, visibleRoleIds := ["r2"],
    visiblePartyIds := [], includeSelf := false }

def nGame : Game :=
  { id := "g", name := "G",
    roles := [{ id := "r", name := "R", partyId := none },
              { id := "r2", name := "R2", partyId := none }],
    revealRules := [nRule] }

def nPlayerB : Player :=
  { id := "B", name := "Bea", socketId := "s2", sessionId := "t2",
    roleId := some "r2", hasSubmittedRole := true, connected := true,
    disconnectTimer := false }

def nRoom : Room :=
  { code := "1", ownerId := "A", gameId := some "g", phase := Phase.reveal,
    players := [{ cPlayerA with roleId := some "r" }, nPlayerB] }

/-- Witness for C10: a matching rule without a scope field is evaluated as
custom on a concrete room. -/
theorem claim_C10_witness :
    getRevealForPlayer [nGame] nRoom { cPlayerA with roleId := some "r" } =
      { gameId := nRoom.gameId,
        visiblePlayers :=
          (nRoom.players.filter
            (customVisibleFilter nGame nRule
              ({ cPlayerA with roleId := some "r" } : Player).id)).map
            toVisibleEntry } :=
  (claim_C10 [nGame] nRoom { cPlayerA with roleId := some "r" } nGame nRule
    (by decide)).1 (by decide) (by decide)


end WhoIsMyFriend
